import Mathlib

/-!
Verification of typer-cli (src/typer_cli/main.py) against its specification.

The Python program is shallowly embedded: a loaded module namespace is an
association list from attribute names to classified values, the process-wide
mutable `state` object is threaded explicitly, `sys.exit(1)` is an error
result, and the filesystem / import machinery appear as explicit oracles.
-/

namespace TyperCli

/-- Classification of a Python value found in a loaded module namespace: a
`typer.Typer` instance (which, like any object with `__call__`, is also
callable), some other callable (function, class, ...), or a non-callable
value. -/
inductive PyValue where
  | typerApp : PyValue
  | callableFn : PyValue
  | other : PyValue
deriving DecidableEq, Repr

/-- `isinstance(obj, typer.Typer)` on the result of an attribute lookup
(`none` models the lookup default `None`). -/
def isTyper : Option PyValue → Bool
  | some .typerApp => true
  | _ => false

/-- Python `callable(obj)`: `typer.Typer` defines `__call__`, so Typer
instances are callable; `callable(None)` is false. -/
def pyCallable : Option PyValue → Bool
  | some .typerApp => true
  | some .callableFn => true
  | _ => false

/-- A loaded module namespace: the names `dir(module)` enumerates, in a fixed
stable enumeration order, each with the value bound to it.  Iteration over the
Python sets built from these names within one process is modelled by this same
stable order. -/
abbrev Module := List (String × PyValue)

/-- `getattr(module, name, None)`. -/
def getattrM (m : Module) (n : String) : Option PyValue :=
  (m.find? (fun p => p.1 == n)).map (·.2)

/-- The process-wide `State` object (main.py:24-32). -/
structure State where
  app : Option String := none
  func : Option String := none
  file : Option String := none
  module : Option String := none
deriving DecidableEq, Repr

/-- `state = State()` (main.py:32): all fields start as `None`. -/
def initState : State := {}

/-- Python truthiness of an optional string: `None` and `""` are falsy. -/
def optTruthy : Option String → Bool
  | some s => s != ""
  | none => false

/-- One character of the regex class `[a-zA-Z_]` (modelled over the ASCII
range the pattern names). -/
def isIdentStart (c : Char) : Bool := c.isAlpha || c == '_'

/-- One character of the regex class `\w`, over the ASCII range. -/
def isWordChar (c : Char) : Bool := c.isAlpha || c.isDigit || c == '_'

/-- Full match of `[a-zA-Z_]\w*` against one dot-free segment. -/
def isIdentSeg (l : List Char) : Bool :=
  match l with
  | [] => false
  | c :: rest => isIdentStart c && rest.all isWordChar

/-- Split a character list at every dot (Python `s.split(".")`): the result
always has at least one (possibly empty) segment. -/
def splitDots : List Char → List (List Char)
  | [] => [[]]
  | c :: rest =>
    match splitDots rest with
    | s :: ss => if c == '.' then [] :: s :: ss else (c :: s) :: ss
    | [] => [[c]]

/-- `re.fullmatch(r"[a-zA-Z_]\w*(\.[a-zA-Z_]\w*)*", s)`: every dot-separated
segment is a non-empty identifier.  A dot is not a word character, so the
regex's language is exactly the strings whose dot-split segments all match
`[a-zA-Z_]\w*`. -/
def isDottedIdent (s : String) : Bool := (splitDots s.toList).all isIdentSeg

/-- `maybe_update_state` (main.py:35-53).  `fs p` models
`Path(p).exists() and Path(p).is_file()`; `Except.error 1` models the
`sys.exit(1)` on an invalid positional argument, reached before any loading.
The three `Option String` parameters are `ctx.params.get("path_or_module")`,
`ctx.params.get("app")` and `ctx.params.get("func")`.  `applyOverrides` is
the tail of the function (main.py:48-53): store truthy `app` / `func`
parameters into the state. -/
def applyOverrides (appP funcP : Option String) (st : State) : State :=
  let st2 := match appP with
    | some a => if a != "" then { st with app := some a } else st
    | none => st
  match funcP with
  | some f => if f != "" then { st2 with func := some f } else st2
  | none => st2

def maybe_update_state (fs : String → Bool) (path_or_module appP funcP : Option String)
    (st : State) : Except Nat State :=
  let step1 : Except Nat State :=
    match path_or_module with
    | some p =>
      if p != "" then
        if fs p then .ok { st with file := some p }
        else if isDottedIdent p then .ok { st with module := some p }
        else .error 1
      else .ok st
    | none => .ok st
  step1.bind fun st1 => .ok (applyOverrides appP funcP st1)

/-- `n` successive calls of `maybe_update_state` with the same parsed
parameters (one command line is parsed once per process, so every entry point
passes the same values) and the same filesystem, starting from the pristine
process state. -/
def updateSeq (fs : String → Bool) (pom appP funcP : Option String) : Nat → Except Nat State
  | 0 => .ok initState
  | n + 1 => (updateSeq fs pom appP funcP n).bind (maybe_update_state fs pom appP funcP)

/-- main.py:16. -/
def default_app_names : List String := ["app", "cli", "main"]

/-- main.py:17. -/
def default_func_names : List String := ["main", "cli", "app"]

/-- What App Discovery produced: an existing Typer object bound to a name in
the namespace, or a fresh one-command Typer synthesized around the callable
bound to a name (`sub_app.command()(func_obj)`). -/
inductive Found where
  | existing (name : String)
  | synthesized (name : String)
deriving DecidableEq, Repr

/-- Result of `get_typer_from_module`: process termination (`sys.exit`), a
discovered application, or `None`. -/
inductive DiscoverResult where
  | exited (code : Nat)
  | found (f : Found)
  | absent
deriving DecidableEq, Repr

/-- `get_typer_from_module` (main.py:74-119).  The preferred-name loop checks
`name in local_names_set` and then `isinstance`; since a missing attribute
yields `None` and `isTyper none = false`, the two checks fuse into one
predicate.  The loops over `local_names_set - set(...)` iterate the
namespace's stable enumeration order with the preferred names removed. -/
def get_typer_from_module (st : State) (m : Module) : DiscoverResult :=
  if optTruthy st.app then
    let a := st.app.getD ""
    if isTyper (getattrM m a) then .found (.existing a) else .exited 1
  else if optTruthy st.func then
    let f := st.func.getD ""
    if pyCallable (getattrM m f) then .found (.synthesized f) else .exited 1
  else
    match default_app_names.find? (fun n => isTyper (getattrM m n)) with
    | some n => .found (.existing n)
    | none =>
      match (m.filter (fun p => !(default_app_names.contains p.1))).find?
          (fun p => isTyper (some p.2)) with
      | some p => .found (.existing p.1)
      | none =>
        match default_func_names.find? (fun n => pyCallable (getattrM m n)) with
        | some n => .found (.synthesized n)
        | none =>
          match (m.filter (fun p => !(default_func_names.contains p.1))).find?
              (fun p => pyCallable (some p.2)) with
          | some p => .found (.synthesized p.1)
          | none => .absent

/-- App Discovery as claim C1 words it: after the `appName` / `funcName`
overrides, a single first-match-wins candidate list — applications under the
preferred names, then any other application-valued name, then callables under
the preferred function names, then any other callable. -/
def discoverSpec (st : State) (m : Module) : DiscoverResult :=
  if optTruthy st.app then
    let a := st.app.getD ""
    if isTyper (getattrM m a) then .found (.existing a) else .exited 1
  else if optTruthy st.func then
    let f := st.func.getD ""
    if pyCallable (getattrM m f) then .found (.synthesized f) else .exited 1
  else
    let appCandidates : List String :=
      default_app_names.filter (fun n => isTyper (getattrM m n)) ++
        ((m.filter (fun p => !(default_app_names.contains p.1) && isTyper (some p.2))).map (·.1))
    let funcCandidates : List String :=
      default_func_names.filter (fun n => pyCallable (getattrM m n)) ++
        ((m.filter (fun p => !(default_func_names.contains p.1) && pyCallable (some p.2))).map (·.1))
    match appCandidates.head? with
    | some n => .found (.existing n)
    | none =>
      match funcCandidates.head? with
      | some n => .found (.synthesized n)
      | none => .absent

theorem find?_filter_head {α : Type} (p : α → Bool) (l : List α) :
    l.find? p = (l.filter p).head? := by
  induction l with
  | nil => rfl
  | cons a t ih =>
    by_cases h : p a
    · rw [List.find?_cons_of_pos _ h, List.filter_cons_of_pos h]
      rfl
    · rw [List.find?_cons_of_neg _ h, List.filter_cons_of_neg (by simpa using h), ih]

theorem head?_append_or {α : Type} (a b : List α) :
    (a ++ b).head? = (a.head?).or b.head? := by
  cases a <;> simp [Option.or]

theorem filter_and {α : Type} (p q : α → Bool) (l : List α) :
    l.filter (fun a => p a && q a) = (l.filter p).filter q := by
  induction l with
  | nil => rfl
  | cons a t ih =>
    by_cases hp : p a <;> by_cases hq : q a <;>
      simp [List.filter, hp, hq, ih]

theorem head?_map_fst {α β : Type} (f : α → β) (l : List α) :
    (l.map f).head? = l.head?.map f := by
  cases l <;> rfl

/-- The two-stage scan (a preferred-name loop, then the remaining names in
enumeration order) equals the head of the concatenated candidate list. -/
theorem scan_eq (names : List String) (m : Module) (test : Option PyValue → Bool) :
    (names.filter (fun n => test (getattrM m n)) ++
      (m.filter (fun p => !(names.contains p.1) && test (some p.2))).map (·.1)).head?
    = Option.or (names.find? (fun n => test (getattrM m n)))
        (((m.filter (fun p => !(names.contains p.1))).find?
          (fun p => test (some p.2))).map (·.1)) := by
  rw [head?_append_or, find?_filter_head, filter_and, find?_filter_head, head?_map_fst]

/-- C1: App Discovery follows a first-match-wins search order: the `appName`
override (which must name a Typer object, otherwise the process exits
non-zero), then the `funcName` override (which must name a callable,
otherwise the process exits non-zero), then the first Typer object under the
preferred names app, cli, main, then any other Typer-valued name, then a
callable under the preferred function names, then any other callable, and
otherwise absent. -/
theorem C1_discovery_order (st : State) (m : Module) :
    get_typer_from_module st m = discoverSpec st m := by
  unfold get_typer_from_module discoverSpec
  by_cases ha : optTruthy st.app
  · simp [ha]
  · by_cases hf : optTruthy st.func
    · simp [ha, hf]
    · simp only [ha, hf, Bool.false_eq_true, if_false]
      rw [scan_eq, scan_eq]
      cases h1 : default_app_names.find? (fun n => isTyper (getattrM m n)) with
      | some n => simp [Option.or]
      | none =>
        simp only [Option.or]
        cases h2 : (m.filter (fun p => !(default_app_names.contains p.1))).find?
            (fun p => isTyper (some p.2)) with
        | some p => simp
        | none =>
          simp only [Option.map_none']
          cases h3 : default_func_names.find? (fun n => pyCallable (getattrM m n)) with
          | some n => simp [Option.or]
          | none =>
            simp only [Option.or]
            cases h4 : (m.filter (fun p => !(default_func_names.contains p.1))).find?
                (fun p => pyCallable (some p.2)) with
            | some p => simp
            | none => simp

/-- C4: discovery is deterministic — it is a pure function of the namespace
contents and the overrides, so repeated calls agree — and ties are broken by
the fixed preferred-name list first (a preferred-named Typer object wins) and
then by the stable enumeration order of the remaining names (the first
remaining Typer-valued binding wins). -/
theorem C4_determinism :
    (∀ (st : State) (m : Module) (r r' : DiscoverResult),
      get_typer_from_module st m = r → get_typer_from_module st m = r' → r = r') ∧
    (∀ (m : Module) (n : String),
      default_app_names.find? (fun n' => isTyper (getattrM m n')) = some n →
      get_typer_from_module initState m = .found (.existing n)) ∧
    (∀ (m : Module) (p : String × PyValue),
      default_app_names.find? (fun n' => isTyper (getattrM m n')) = none →
      (m.filter (fun q => !(default_app_names.contains q.1))).find?
        (fun q => isTyper (some q.2)) = some p →
      get_typer_from_module initState m = .found (.existing p.1)) := by
  refine ⟨fun st m r r' h h' => h ▸ h', fun m n h => ?_, fun m p h1 h2 => ?_⟩
  · unfold get_typer_from_module
    simp only [show optTruthy initState.app = false from rfl,
      show optTruthy initState.func = false from rfl, Bool.false_eq_true, if_false, h]
  · unfold get_typer_from_module
    simp only [show optTruthy initState.app = false from rfl,
      show optTruthy initState.func = false from rfl, Bool.false_eq_true, if_false, h1, h2]

theorem applyOverrides_file (appP funcP : Option String) (st : State) :
    (applyOverrides appP funcP st).file = st.file := by
  unfold applyOverrides
  cases appP <;> cases funcP <;> simp only [] <;> (try split) <;> (try split) <;> rfl

theorem applyOverrides_module (appP funcP : Option String) (st : State) :
    (applyOverrides appP funcP st).module = st.module := by
  unfold applyOverrides
  cases appP <;> cases funcP <;> simp only [] <;> (try split) <;> (try split) <;> rfl

/-- One successful `maybe_update_state` call either leaves `state.file`
unchanged or sets it to a truthy positional argument that passed the
filesystem check, and symmetrically for `state.module` with a failed
filesystem check. -/
theorem update_branch (fs : String → Bool) (pom appP funcP : Option String)
    (st st' : State) (h : maybe_update_state fs pom appP funcP st = .ok st') :
    (st'.file = st.file ∨ ∃ p, pom = some p ∧ p ≠ "" ∧ fs p = true ∧ st'.file = some p) ∧
    (st'.module = st.module ∨
      ∃ p, pom = some p ∧ p ≠ "" ∧ fs p = false ∧ st'.module = some p) := by
  unfold maybe_update_state at h
  cases pom with
  | none =>
    simp only [Except.bind] at h
    injection h with h
    subst h
    exact ⟨.inl (applyOverrides_file _ _ _), .inl (applyOverrides_module _ _ _)⟩
  | some p =>
    dsimp only at h
    by_cases hb : (p != "") = true
    · have hpne : p ≠ "" := by simpa using hb
      rw [if_pos hb] at h
      by_cases hfs : fs p = true
      · rw [if_pos hfs] at h
        simp only [Except.bind] at h
        injection h with h
        subst h
        refine ⟨.inr ⟨p, rfl, hpne, hfs, ?_⟩, .inl ?_⟩
        · rw [applyOverrides_file]
        · rw [applyOverrides_module]
      · rw [if_neg hfs] at h
        by_cases hid : isDottedIdent p = true
        · rw [if_pos hid] at h
          simp only [Except.bind] at h
          injection h with h
          subst h
          refine ⟨.inl ?_, .inr ⟨p, rfl, hpne, by simpa using hfs, ?_⟩⟩
          · rw [applyOverrides_file]
          · rw [applyOverrides_module]
        · rw [if_neg hid] at h
          exact Except.noConfusion h
    · rw [if_neg hb] at h
      simp only [Except.bind] at h
      injection h with h
      subst h
      exact ⟨.inl (applyOverrides_file _ _ _), .inl (applyOverrides_module _ _ _)⟩

/-- Along a whole process lifetime (any number of entry-point calls with the
one parsed command line), `state.file` can only be populated when the
positional argument exists as a regular file, and `state.module` only when
it does not. -/
theorem updateSeq_inv (fs : String → Bool) (pom appP funcP : Option String)
    (n : Nat) (st : State) (h : updateSeq fs pom appP funcP n = .ok st) :
    (st.file ≠ none → ∃ p, pom = some p ∧ p ≠ "" ∧ fs p = true) ∧
    (st.module ≠ none → ∃ p, pom = some p ∧ p ≠ "" ∧ fs p = false) := by
  induction n generalizing st with
  | zero =>
    injection h with h
    subst h
    exact ⟨fun hc => absurd rfl hc, fun hc => absurd rfl hc⟩
  | succ n ih =>
    unfold updateSeq at h
    cases hseq : updateSeq fs pom appP funcP n with
    | error c => rw [hseq] at h; exact absurd h (by simp [Except.bind])
    | ok st0 =>
      rw [hseq] at h
      simp only [Except.bind] at h
      obtain ⟨hf, hm⟩ := update_branch fs pom appP funcP st0 st h
      obtain ⟨ihf, ihm⟩ := ih st0 hseq
      constructor
      · intro hne
        rcases hf with heq | ⟨p, hp, hpne, hfs, _⟩
        · exact ihf (heq ▸ hne)
        · exact ⟨p, hp, hpne, hfs⟩
      · intro hne
        rcases hm with heq | ⟨p, hp, hpne, hfs, _⟩
        · exact ihm (heq ▸ hne)
        · exact ⟨p, hp, hpne, hfs⟩

/-- C9: once `state.file` or `state.module` is set it is never cleared by a
later update, and after every sequence of update calls in one process (all
carrying the same parsed command line and seeing the same filesystem) at most
one of the two fields is set. -/
theorem C9_state_invariant :
    (∀ (fs : String → Bool) (pom appP funcP : Option String) (st st' : State),
      maybe_update_state fs pom appP funcP st = .ok st' →
      (st.file.isSome → st'.file.isSome) ∧ (st.module.isSome → st'.module.isSome)) ∧
    (∀ (fs : String → Bool) (pom appP funcP : Option String) (n : Nat) (st : State),
      updateSeq fs pom appP funcP n = .ok st → st.file = none ∨ st.module = none) := by
  constructor
  · intro fs pom appP funcP st st' h
    obtain ⟨hf, hm⟩ := update_branch fs pom appP funcP st st' h
    constructor
    · intro hs
      rcases hf with heq | ⟨p, _, _, _, hset⟩
      · rw [heq]; exact hs
      · rw [hset]; rfl
    · intro hs
      rcases hm with heq | ⟨p, _, _, _, hset⟩
      · rw [heq]; exact hs
      · rw [hset]; rfl
  · intro fs pom appP funcP n st h
    cases hfk : st.file with
    | none => exact .inl rfl
    | some p =>
      cases hmk : st.module with
      | none => exact .inr rfl
      | some q =>
        exfalso
        obtain ⟨h1, h2⟩ := updateSeq_inv fs pom appP funcP n st h
        obtain ⟨p1, hp1, _, hfs1⟩ := h1 (by rw [hfk]; exact Option.some_ne_none p)
        obtain ⟨p2, hp2, _, hfs2⟩ := h2 (by rw [hmk]; exact Option.some_ne_none q)
        rw [hp1] at hp2
        injection hp2 with e
        subst e
        rw [hfs1] at hfs2
        cases hfs2

/-- C3 as stated is violated by the empty positional argument: `""` names no
existing regular file and does not match the dotted-identifier grammar, yet
the process does not terminate — Python truthiness makes
`if path_or_module:` skip the empty string entirely, so no classification
and no exit happen. -/
theorem C3_counterexample :
    (fun _ => false : String → Bool) "" = false ∧ isDottedIdent "" = false ∧
    maybe_update_state (fun _ => false) (some "") none none initState = .ok initState :=
  ⟨rfl, by decide, rfl⟩

/-- C3 amended: for every NON-EMPTY positional input, an existing regular
file sets `state.file` (leaving `state.module` unset), any other input
matching the dotted-identifier grammar sets `state.module` (leaving
`state.file` unset), and any other input terminates the process non-zero
before any loading; the empty string is falsy in Python and is skipped like
an absent argument. -/
theorem C3_classification (fs : String → Bool) (s : String) (hs : s ≠ "") :
    (fs s = true → maybe_update_state fs (some s) none none initState =
      .ok { initState with file := some s }) ∧
    (fs s = false → isDottedIdent s = true →
      maybe_update_state fs (some s) none none initState =
        .ok { initState with module := some s }) ∧
    (fs s = false → isDottedIdent s = false →
      maybe_update_state fs (some s) none none initState = .error 1) := by
  have hb : (s != "") = true := by simpa using hs
  refine ⟨fun h1 => ?_, fun h1 h2 => ?_, fun h1 h2 => ?_⟩
  · unfold maybe_update_state
    dsimp only
    rw [if_pos hb, if_pos h1]
    rfl
  · unfold maybe_update_state
    dsimp only
    rw [if_pos hb, if_neg (by simp [h1]), if_pos h2]
    rfl
  · unfold maybe_update_state
    dsimp only
    rw [if_pos hb, if_neg (by simp [h1]), if_neg (by simp [h2])]
    rfl

theorem C3_classification_witness :
    maybe_update_state (fun _ => false) (some "pkg.mod") none none initState =
      .ok { initState with module := some "pkg.mod" } :=
  (C3_classification (fun _ => false) "pkg.mod" (by decide)).2.1 rfl (by decide)

/-- A click command object as Lazy Augmentation observes it: its `name` and
its `help` attribute. -/
structure ClickCommand where
  name : String
  help : Option String
deriving DecidableEq, Repr

/-- The host command group: its `commands` dict (`name -> Command`), in
insertion order. -/
structure Cli where
  commands : List (String × ClickCommand)
deriving DecidableEq, Repr

/-- Python dict assignment `self.commands[cmd.name] = cmd` (click's
`Group.add_command`): overwrite in place when the key exists, append
otherwise. -/
def Cli.add_command (cli : Cli) (cmd : ClickCommand) : Cli :=
  if cli.commands.any (fun p => p.1 == cmd.name) then
    ⟨cli.commands.map (fun p => if p.1 == cmd.name then (cmd.name, cmd) else p)⟩
  else ⟨cli.commands ++ [(cmd.name, cmd)]⟩

/-- Outcome of the Source Loader machinery (importlib spec lookup and module
execution, main.py:123-136), supplied as an oracle: either it fails — a
`None` spec (`sys.exit(1)`) or an exception while executing the source, both
terminating the process non-zero — or it produces a namespace. -/
inductive LoadOutcome where
  | failure
  | success (m : Module)
deriving DecidableEq, Repr

/-- `get_typer_from_state` (main.py:122-138): if neither source field is set,
`spec` stays `None` and the process exits; otherwise the loader runs, and on
success App Discovery runs on the loaded namespace. -/
def get_typer_from_state (st : State) (loader : LoadOutcome) : Except Nat (Option Found) :=
  if st.file.isSome || optTruthy st.module then
    match loader with
    | .failure => .error 1
    | .success m =>
      match get_typer_from_module st m with
      | .exited c => .error c
      | .found f => .ok (some f)
      | .absent => .ok none
  else .error 1

/-- Result of one `maybe_add_run_to_cli` call: the host group afterwards, how
many times the Source Loader + App Discovery sequence ran (0 or 1), and
whether the process terminated (`sys.exit` code). -/
structure MARResult where
  cli : Cli
  loads : Nat
  exited : Option Nat
deriving DecidableEq, Repr

/-- `maybe_add_run_to_cli` (main.py:141-151).  `gc` models
`typer.main.get_command` — the conversion of the discovered Typer object into
a click command object (its help text comes from the Typer app).  The
conversion is renamed to `run` and, when its help is falsy, given the default
help string before being attached. -/
def maybe_add_run_to_cli (st : State) (loader : LoadOutcome) (gc : Found → ClickCommand)
    (cli : Cli) : MARResult :=
  if cli.commands.any (fun p => p.1 == "run") then ⟨cli, 0, none⟩
  else if st.file.isSome || optTruthy st.module then
    match get_typer_from_state st loader with
    | .error c => ⟨cli, 1, some c⟩
    | .ok none => ⟨cli, 1, none⟩
    | .ok (some f) =>
      let click_obj := gc f
      let click_obj1 := { click_obj with name := "run" }
      let click_obj2 := if optTruthy click_obj1.help then click_obj1
        else { click_obj1 with help := some "Run the provided Typer app." }
      ⟨cli.add_command click_obj2, 1, none⟩
  else ⟨cli, 0, none⟩

theorem add_command_has_key (cli : Cli) (cmd : ClickCommand) :
    (cli.add_command cmd).commands.any (fun p => p.1 == cmd.name) = true := by
  unfold Cli.add_command
  by_cases h : cli.commands.any (fun p => p.1 == cmd.name) = true
  · rw [if_pos h]
    rcases List.any_eq_true.mp h with ⟨q, hq, hqk⟩
    refine List.any_eq_true.mpr ⟨(cmd.name, cmd), ?_, ?_⟩
    · exact List.mem_map.mpr ⟨q, hq, by simp [hqk]⟩
    · simp
  · rw [if_neg h]
    refine List.any_eq_true.mpr ⟨(cmd.name, cmd), ?_, by simp⟩
    simp

theorem mar_guard (st : State) (loader : LoadOutcome) (gc : Found → ClickCommand)
    (cli : Cli) (h0 : cli.commands.any (fun p => p.1 == "run") = true) :
    maybe_add_run_to_cli st loader gc cli = ⟨cli, 0, none⟩ := by
  unfold maybe_add_run_to_cli
  rw [if_pos h0]

theorem mar_nosrc (st : State) (loader : LoadOutcome) (gc : Found → ClickCommand)
    (cli : Cli) (h0 : cli.commands.any (fun p => p.1 == "run") = false)
    (hsrc : (st.file.isSome || optTruthy st.module) = false) :
    maybe_add_run_to_cli st loader gc cli = ⟨cli, 0, none⟩ := by
  unfold maybe_add_run_to_cli
  rw [if_neg (by rw [h0]; exact Bool.false_ne_true),
    if_neg (by rw [hsrc]; exact Bool.false_ne_true)]

theorem mar_error (st : State) (loader : LoadOutcome) (gc : Found → ClickCommand)
    (cli : Cli) (c : Nat) (h0 : cli.commands.any (fun p => p.1 == "run") = false)
    (hsrc : (st.file.isSome || optTruthy st.module) = true)
    (hget : get_typer_from_state st loader = .error c) :
    maybe_add_run_to_cli st loader gc cli = ⟨cli, 1, some c⟩ := by
  unfold maybe_add_run_to_cli
  rw [if_neg (by rw [h0]; exact Bool.false_ne_true), if_pos hsrc, hget]

theorem mar_absent (st : State) (loader : LoadOutcome) (gc : Found → ClickCommand)
    (cli : Cli) (h0 : cli.commands.any (fun p => p.1 == "run") = false)
    (hsrc : (st.file.isSome || optTruthy st.module) = true)
    (hget : get_typer_from_state st loader = .ok none) :
    maybe_add_run_to_cli st loader gc cli = ⟨cli, 1, none⟩ := by
  unfold maybe_add_run_to_cli
  rw [if_neg (by rw [h0]; exact Bool.false_ne_true), if_pos hsrc, hget]

theorem mar_found (st : State) (loader : LoadOutcome) (gc : Found → ClickCommand)
    (cli : Cli) (f : Found) (h0 : cli.commands.any (fun p => p.1 == "run") = false)
    (hsrc : (st.file.isSome || optTruthy st.module) = true)
    (hget : get_typer_from_state st loader = .ok (some f)) :
    maybe_add_run_to_cli st loader gc cli =
      ⟨cli.add_command ⟨"run", if optTruthy (gc f).help then (gc f).help
        else some "Run the provided Typer app."⟩, 1, none⟩ := by
  unfold maybe_add_run_to_cli
  rw [if_neg (by rw [h0]; exact Bool.false_ne_true), if_pos hsrc, hget]
  dsimp only
  by_cases hh : optTruthy (gc f).help = true
  · rw [if_pos hh, if_pos hh]
  · rw [if_neg hh, if_neg hh]

/-- C2 as stated is violated when App Discovery returns absent: no `run`
command is attached, so the guard does not trip and the second call repeats
the whole Source Loader + App Discovery sequence — two loads for two calls,
not at most one.  Concretely: `state.file` is set and the loaded namespace is
empty. -/
theorem C2_counterexample :
    (maybe_add_run_to_cli { initState with file := some "script.py" } (.success [])
        (fun _ => ⟨"x", none⟩) ⟨[]⟩).loads +
      (maybe_add_run_to_cli { initState with file := some "script.py" } (.success [])
        (fun _ => ⟨"x", none⟩)
        ((maybe_add_run_to_cli { initState with file := some "script.py" } (.success [])
          (fun _ => ⟨"x", none⟩) ⟨[]⟩).cli)).loads = 2 := by
  rfl

/-- C2 amended: the `run`-present guard short-circuits before any loading
(first conjunct); once a call has left `run` in the host group the next call
performs no loading or discovery work (second conjunct); and two calls in
succession perform the load + discovery sequence at most once in total unless
the first call terminated the process or App Discovery returned absent — in
the absent case no `run` command exists afterwards and every further call
repeats the load + discovery work (third conjunct). -/
theorem C2_idempotence_guard (st : State) (loader : LoadOutcome)
    (gc : Found → ClickCommand) (cli : Cli) :
    (cli.commands.any (fun p => p.1 == "run") = true →
      maybe_add_run_to_cli st loader gc cli = ⟨cli, 0, none⟩) ∧
    ((maybe_add_run_to_cli st loader gc cli).cli.commands.any
        (fun p => p.1 == "run") = true →
      (maybe_add_run_to_cli st loader gc
        (maybe_add_run_to_cli st loader gc cli).cli).loads = 0) ∧
    ((maybe_add_run_to_cli st loader gc cli).loads +
        (maybe_add_run_to_cli st loader gc
          (maybe_add_run_to_cli st loader gc cli).cli).loads ≤ 1 ∨
      (maybe_add_run_to_cli st loader gc cli).exited.isSome = true ∨
      get_typer_from_state st loader = .ok none) := by
  refine ⟨mar_guard st loader gc cli, fun hc => by rw [mar_guard st loader gc _ hc], ?_⟩
  by_cases h0 : cli.commands.any (fun p => p.1 == "run") = true
  · left
    rw [mar_guard st loader gc cli h0]
    rw [mar_guard st loader gc cli h0]
    simp
  · have h0f : cli.commands.any (fun p => p.1 == "run") = false := by
      cases hx : cli.commands.any (fun p => p.1 == "run")
      · rfl
      · exact absurd hx h0
    by_cases hsrc : (st.file.isSome || optTruthy st.module) = true
    · cases hget : get_typer_from_state st loader with
      | error c =>
        right; left
        rw [mar_error st loader gc cli c h0f hsrc hget]
        rfl
      | ok o =>
        cases o with
        | none => right; right; rfl
        | some f =>
          left
          rw [mar_found st loader gc cli f h0f hsrc hget]
          rw [mar_guard st loader gc _ (add_command_has_key cli _)]
          simp
    · have hsrcf : (st.file.isSome || optTruthy st.module) = false := by
        cases hx : (st.file.isSome || optTruthy st.module)
        · rfl
        · exact absurd hx hsrc
      left
      rw [mar_nosrc st loader gc cli h0f hsrcf]
      rw [mar_nosrc st loader gc cli h0f hsrcf]
      simp

/-- C6: the frame condition of Lazy Augmentation — when loading or discovery
fails (the call terminates the process via `sys.exit`) or App Discovery
returns absent, the host group's command table after the attempt is exactly
what it was before: no command is added, removed, or modified. -/
theorem C6_frame (st : State) (loader : LoadOutcome) (gc : Found → ClickCommand)
    (cli : Cli) :
    ((maybe_add_run_to_cli st loader gc cli).exited.isSome = true →
      (maybe_add_run_to_cli st loader gc cli).cli = cli) ∧
    (get_typer_from_state st loader = .ok none →
      (maybe_add_run_to_cli st loader gc cli).cli = cli) := by
  by_cases h0 : cli.commands.any (fun p => p.1 == "run") = true
  · rw [mar_guard st loader gc cli h0]
    exact ⟨fun _ => rfl, fun _ => rfl⟩
  · have h0f : cli.commands.any (fun p => p.1 == "run") = false := by
      cases hx : cli.commands.any (fun p => p.1 == "run")
      · rfl
      · exact absurd hx h0
    by_cases hsrc : (st.file.isSome || optTruthy st.module) = true
    · cases hget : get_typer_from_state st loader with
      | error c =>
        rw [mar_error st loader gc cli c h0f hsrc hget]
        exact ⟨fun _ => rfl, fun hn => by cases hn⟩
      | ok o =>
        cases o with
        | none =>
          rw [mar_absent st loader gc cli h0f hsrc hget]
          exact ⟨fun _ => rfl, fun _ => rfl⟩
        | some f =>
          rw [mar_found st loader gc cli f h0f hsrc hget]
          refine ⟨fun hx => ?_, fun hn => ?_⟩
          · cases hx
          · injection hn with hn2
            cases hn2
    · have hsrcf : (st.file.isSome || optTruthy st.module) = false := by
        cases hx : (st.file.isSome || optTruthy st.module)
        · rfl
        · exact absurd hx hsrc
      rw [mar_nosrc st loader gc cli h0f hsrcf]
      exact ⟨fun _ => rfl, fun _ => rfl⟩

/-- C5 as stated is violated on the default help string: the code attaches a
command named `run`, but when the converted command has no help text it is
given the string "Run the provided Typer app." (main.py:150), not the
claim's "Run the provided application.". -/
theorem C5_counterexample :
    (maybe_add_run_to_cli { initState with file := some "script.py" }
        (.success [("app", .typerApp)]) (fun _ => ⟨"greet", none⟩) ⟨[]⟩).cli.commands =
      [("run", ⟨"run", some "Run the provided Typer app."⟩)] ∧
    some "Run the provided Typer app." ≠ some "Run the provided application." := by
  constructor
  · rfl
  · decide

/-- C5 amended: when Lazy Augmentation finds an application, the command it
attaches to the host group is named exactly `run`, and when the converted
command's help is falsy it is given the default help string
"Run the provided Typer app." (the code's string, not the claim's
"Run the provided application."). -/
theorem C5_run_name_default_help (st : State) (loader : LoadOutcome)
    (gc : Found → ClickCommand) (cli : Cli) (f : Found)
    (hrun : cli.commands.any (fun p => p.1 == "run") = false)
    (hs : get_typer_from_state st loader = .ok (some f)) :
    ∃ cmd : ClickCommand,
      (maybe_add_run_to_cli st loader gc cli).cli = cli.add_command cmd ∧
      cmd.name = "run" ∧
      cmd.help = (if optTruthy (gc f).help then (gc f).help
        else some "Run the provided Typer app.") := by
  have hsrc : (st.file.isSome || optTruthy st.module) = true := by
    unfold get_typer_from_state at hs
    by_cases hc : (st.file.isSome || optTruthy st.module) = true
    · exact hc
    · rw [if_neg hc] at hs
      cases hs
  refine ⟨⟨"run", if optTruthy (gc f).help then (gc f).help
    else some "Run the provided Typer app."⟩, ?_, rfl, rfl⟩
  rw [mar_found st loader gc cli f hrun hsrc hs]

theorem C5_run_name_default_help_witness :
    ∃ cmd : ClickCommand,
      (maybe_add_run_to_cli { initState with file := some "script.py" }
        (.success [("app", .typerApp)]) (fun _ => ⟨"greet", none⟩) ⟨[]⟩).cli =
        Cli.add_command ⟨[]⟩ cmd ∧
      cmd.name = "run" ∧
      cmd.help = (if optTruthy ((fun _ => (⟨"greet", none⟩ : ClickCommand))
          (Found.existing "app")).help
        then ((fun _ => (⟨"greet", none⟩ : ClickCommand)) (Found.existing "app")).help
        else some "Run the provided Typer app.") :=
  C5_run_name_default_help { initState with file := some "script.py" }
    (.success [("app", .typerApp)]) (fun _ => ⟨"greet", none⟩) ⟨[]⟩ (.existing "app")
    rfl rfl

/-- One parameter as `get_docs_for_click` observes it (main.py:225-231):
`param.param_type_name` and `param.get_help_record(ctx)`. -/
structure Param where
  typeName : String
  record : Option (String × String)
deriving DecidableEq, Repr

/-- The click attributes of one command node that `get_docs_for_click`
reads: `obj.name`, `obj.help`, `obj.collect_usage_pieces(ctx)`,
`obj.get_params(ctx)`, `obj.epilog`, `obj.get_short_help_str()` and whether
the node is a `click.Group`.  A `None` name renders as the empty string. -/
structure CmdInfo where
  name : String
  help : Option String
  usagePieces : List String
  params : List Param
  epilog : Option String
  shortHelp : String
  isGroup : Bool
deriving DecidableEq, Repr

mutual
/-- A click command tree: one node and, when the node is a `click.Group`,
its subcommands in `list_commands` order (ignored otherwise). -/
inductive Cmd where
  | node : CmdInfo → CmdList → Cmd
/-- The ordered subcommands of a group. -/
inductive CmdList where
  | nil : CmdList
  | cons : Cmd → CmdList → CmdList
end

def cmdName : Cmd → String
  | .node i _ => i.name

def cmdShortHelp : Cmd → String
  | .node i _ => i.shortHelp

def isNilC : CmdList → Bool
  | .nil => true
  | .cons _ _ => false

/-- The classification loop over `obj.get_params(ctx)` (main.py:223-231):
help records of the parameters whose `param_type_name` is `t`. -/
def collectRecords (t : String) (ps : List Param) : List (String × String) :=
  ps.filterMap (fun p => match p.record with
    | some rv => if p.typeName == t then some rv else none
    | none => none)

/-- One bullet line per help record (main.py:234-238 and 242-246): the help
text is appended only when truthy. -/
def bulletLines : List (String × String) → String
  | [] => ""
  | (n, h) :: rest =>
    "* `" ++ n ++ "`" ++ (if h != "" then ": " ++ h else "") ++ "\n" ++ bulletLines rest

/-- `command_name = name or obj.name`, then prefixed with `call_prefix`
(main.py:207-209). -/
def commandNameOf (info : CmdInfo) (name pre : String) : String :=
  let base := if name != "" then name else info.name
  if pre != "" then pre ++ " " ++ base else base

/-- The heading line (main.py:206-211): `1 + indent` heading markers, then
the backquoted command name, or `CLI` when it is empty. -/
def headingStr (indent : Nat) (commandName : String) : String :=
  String.mk (List.replicate (1 + indent) '#') ++ " " ++
    (if commandName != "" then "`" ++ commandName ++ "`" else "CLI") ++ "\n\n"

/-- main.py:212-213: the help text, when truthy. -/
def helpSection (help : Option String) : String :=
  if optTruthy help then help.getD "" ++ "\n\n" else ""

/-- main.py:214-222: the fenced usage line, when there are usage pieces. -/
def usageSection (commandName : String) (pieces : List String) : String :=
  if !pieces.isEmpty then
    "**Usage**:\n\n" ++ "```console\n" ++ "$ " ++
      (if commandName != "" then commandName ++ " " else "") ++
      String.intercalate " " pieces ++ "\n" ++ "```\n\n"
  else ""

/-- main.py:232-239. -/
def argsSection (records : List (String × String)) : String :=
  if !records.isEmpty then "**Arguments**:\n\n" ++ bulletLines records ++ "\n" else ""

/-- main.py:240-247. -/
def optsSection (records : List (String × String)) : String :=
  if !records.isEmpty then "**Options**:\n\n" ++ bulletLines records ++ "\n" else ""

/-- main.py:248-249. -/
def epilogSection (e : Option String) : String :=
  if optTruthy e then e.getD "" ++ "\n\n" else ""

/-- One bullet per subcommand with its short help (main.py:255-262). -/
def commandBullets : CmdList → String
  | .nil => ""
  | .cons c rest =>
    "* `" ++ cmdName c ++ "`" ++
      (if cmdShortHelp c != "" then ": " ++ cmdShortHelp c else "") ++ "\n" ++
      commandBullets rest

/-- The `**Commands**` bullet list of a group (main.py:252-263), emitted only
when the group has subcommands. -/
def commandsSection (children : CmdList) : String :=
  if isNilC children then "" else "**Commands**:\n\n" ++ commandBullets children ++ "\n"

/-- Everything `get_docs_for_click` emits for one node before recursing into
its children (main.py:206-263), in source order. -/
def ownSections (info : CmdInfo) (children : CmdList) (indent : Nat)
    (commandName : String) : String :=
  headingStr indent commandName ++
  helpSection info.help ++
  usageSection commandName info.usagePieces ++
  argsSection (collectRecords "argument" info.params) ++
  optsSection (collectRecords "option" info.params) ++
  epilogSection info.epilog ++
  (if info.isGroup then commandsSection children else "")

mutual
/-- `get_docs_for_click` (main.py:198-273): the string it returns. -/
def get_docs_for_click (obj : Cmd) (indent : Nat) (name pre : String) : String :=
  match obj with
  | .node info children =>
    let commandName := commandNameOf info name pre
    ownSections info children indent commandName ++
      (if info.isGroup then docsChildren children (indent + 1) commandName else "")

/-- The recursion loop over a group's children (main.py:264-272):
`use_prefix` is the parent's `command_name`, the child is rendered at
`indent + 1` with an empty `name` argument. -/
def docsChildren (cs : CmdList) (indent : Nat) (pre : String) : String :=
  match cs with
  | .nil => ""
  | .cons c rest => get_docs_for_click c indent "" pre ++ docsChildren rest indent pre
end

/-- The rendered text split into one heading block per command plus opaque
text chunks, to state where each heading level appears. -/
inductive Block where
  | heading (level : Nat) (commandName : String)
  | chunk (s : String)

/-- The text one block contributes: a heading block renders exactly as the
heading line of `get_docs_for_click`. -/
def Block.render : Block → String
  | .heading level commandName =>
    String.mk (List.replicate level '#') ++ " " ++
      (if commandName != "" then "`" ++ commandName ++ "`" else "CLI") ++ "\n\n"
  | .chunk s => s

def renderBlocks : List Block → String
  | [] => ""
  | b :: rest => b.render ++ renderBlocks rest

mutual
/-- `get_docs_for_click`, instrumented: the same text as a block list — the
node's heading at level `1 + indent`, one chunk holding all its other
sections, then the blocks of its children (depth-first, in sibling order). -/
def docBlocks (obj : Cmd) (indent : Nat) (name pre : String) : List Block :=
  match obj with
  | .node info children =>
    let commandName := commandNameOf info name pre
    Block.heading (1 + indent) commandName ::
      Block.chunk (helpSection info.help ++
        usageSection commandName info.usagePieces ++
        argsSection (collectRecords "argument" info.params) ++
        optsSection (collectRecords "option" info.params) ++
        epilogSection info.epilog ++
        (if info.isGroup then commandsSection children else "")) ::
      (if info.isGroup then docBlocksChildren children (indent + 1) commandName else [])

def docBlocksChildren (cs : CmdList) (indent : Nat) (pre : String) : List Block :=
  match cs with
  | .nil => []
  | .cons c rest => docBlocks c indent "" pre ++ docBlocksChildren rest indent pre
end

/-- The heading levels of a block list, in emission order. -/
def headingLevelsOf (bs : List Block) : List Nat :=
  bs.filterMap (fun b => match b with
    | .heading l _ => some l
    | .chunk _ => none)

theorem headingLevelsOf_cons_heading (l : Nat) (t : String) (rest : List Block) :
    headingLevelsOf (Block.heading l t :: rest) = l :: headingLevelsOf rest := rfl

theorem headingLevelsOf_cons_chunk (s : String) (rest : List Block) :
    headingLevelsOf (Block.chunk s :: rest) = headingLevelsOf rest := rfl

theorem headingLevelsOf_append (a b : List Block) :
    headingLevelsOf (a ++ b) = headingLevelsOf a ++ headingLevelsOf b :=
  List.filterMap_append a b _

mutual
/-- The heading level each command node receives, in depth-first preorder:
the node itself at `indent + 1`, then (for a group) its children one level
deeper, each child fully before the next sibling. -/
def preLevels : Cmd → Nat → List Nat
  | .node info children, ind =>
    (1 + ind) :: (if info.isGroup then preLevelsList children (ind + 1) else [])

def preLevelsList : CmdList → Nat → List Nat
  | .nil, _ => []
  | .cons c rest, ind => preLevels c ind ++ preLevelsList rest ind
end

mutual
/-- Depth of the command tree: a non-group node (or a group with no
subcommands) has depth 1. -/
def Cmd.depth : Cmd → Nat
  | .node info children => 1 + (if info.isGroup then CmdList.maxDepth children else 0)

def CmdList.maxDepth : CmdList → Nat
  | .nil => 0
  | .cons c rest => max (Cmd.depth c) (CmdList.maxDepth rest)
end

theorem strAppendNil (a : String) : a ++ "" = a := by
  cases a with
  | mk l =>
    show String.mk (l ++ []) = String.mk l
    rw [List.append_nil]

theorem strAppendAssoc (a b c : String) : (a ++ b) ++ c = a ++ (b ++ c) := by
  cases a with
  | mk la =>
    cases b with
    | mk lb =>
      cases c with
      | mk lc =>
        show String.mk ((la ++ lb) ++ lc) = String.mk (la ++ (lb ++ lc))
        rw [List.append_assoc]

theorem renderBlocks_append (a b : List Block) :
    renderBlocks (a ++ b) = renderBlocks a ++ renderBlocks b := by
  induction a with
  | nil =>
    show renderBlocks b = "" ++ renderBlocks b
    cases renderBlocks b with
    | mk l => show String.mk l = String.mk ([] ++ l); rw [List.nil_append]
  | cons x t ih =>
    show Block.render x ++ renderBlocks (t ++ b) = (Block.render x ++ renderBlocks t) ++ renderBlocks b
    rw [ih, strAppendAssoc]

mutual
theorem renderBlocks_docBlocks (c : Cmd) (ind : Nat) (nm pre : String) :
    renderBlocks (docBlocks c ind nm pre) = get_docs_for_click c ind nm pre := by
  cases c with
  | node info children =>
    rw [docBlocks, get_docs_for_click, ownSections, headingStr]
    by_cases hg : info.isGroup = true
    · simp only [if_pos hg]
      simp only [renderBlocks, Block.render]
      rw [renderBlocks_docBlocksChildren children (ind + 1) (commandNameOf info nm pre)]
      simp only [strAppendAssoc]
    · simp only [if_neg hg]
      simp only [renderBlocks, Block.render]
      simp only [strAppendAssoc, strAppendNil]

theorem renderBlocks_docBlocksChildren (cs : CmdList) (ind : Nat) (pre : String) :
    renderBlocks (docBlocksChildren cs ind pre) = docsChildren cs ind pre := by
  cases cs with
  | nil => rfl
  | cons c rest =>
    rw [docBlocksChildren, docsChildren, renderBlocks_append,
      renderBlocks_docBlocks c ind "" pre, renderBlocks_docBlocksChildren rest ind pre]
end

mutual
theorem headingLevels_docBlocks (c : Cmd) (ind : Nat) (nm pre : String) :
    headingLevelsOf (docBlocks c ind nm pre) = preLevels c ind := by
  cases c with
  | node info children =>
    rw [docBlocks, preLevels]
    by_cases hg : info.isGroup = true
    · simp only [if_pos hg]
      rw [headingLevelsOf_cons_heading, headingLevelsOf_cons_chunk,
        headingLevels_docBlocksChildren children (ind + 1) (commandNameOf info nm pre)]
    · simp only [if_neg hg]
      rfl

theorem headingLevels_docBlocksChildren (cs : CmdList) (ind : Nat) (pre : String) :
    headingLevelsOf (docBlocksChildren cs ind pre) = preLevelsList cs ind := by
  cases cs with
  | nil => rfl
  | cons c rest =>
    rw [docBlocksChildren, preLevelsList, headingLevelsOf_append,
      headingLevels_docBlocks c ind "" pre,
      headingLevels_docBlocksChildren rest ind pre]
end

mutual
theorem mem_preLevels (c : Cmd) (ind l : Nat) :
    l ∈ preLevels c ind ↔ ind + 1 ≤ l ∧ l ≤ ind + Cmd.depth c := by
  cases c with
  | node info children =>
    rw [preLevels, Cmd.depth]
    by_cases hg : info.isGroup = true
    · rw [if_pos hg, if_pos hg, List.mem_cons, mem_preLevelsList children (ind + 1) l]
      omega
    · rw [if_neg hg, if_neg hg]
      simp only [List.mem_singleton]
      omega

theorem mem_preLevelsList (cs : CmdList) (ind l : Nat) :
    l ∈ preLevelsList cs ind ↔ ind + 1 ≤ l ∧ l ≤ ind + CmdList.maxDepth cs := by
  cases cs with
  | nil =>
    rw [preLevelsList, CmdList.maxDepth]
    simp only [List.not_mem_nil, false_iff]
    omega
  | cons c rest =>
    rw [preLevelsList, CmdList.maxDepth, List.mem_append,
      mem_preLevels c ind l, mem_preLevelsList rest ind l]
    rcases Nat.le_total (Cmd.depth c) (CmdList.maxDepth rest) with hle | hle
    · rw [Nat.max_eq_right hle]
      omega
    · rw [Nat.max_eq_left hle]
      omega
end

/-- C8: the block decomposition renders to exactly the text of
`get_docs_for_click` (first conjunct); the heading levels appear in
depth-first preorder — each node's heading at `1 + ` its depth, parent first,
each child's full rendering before the next sibling's (second conjunct); and
the distinct heading levels of a tree of depth D are exactly 1..D (third
conjunct). -/
theorem C8_renderer_depth (c : Cmd) (nm : String) :
    renderBlocks (docBlocks c 0 nm "") = get_docs_for_click c 0 nm "" ∧
    headingLevelsOf (docBlocks c 0 nm "") = preLevels c 0 ∧
    (∀ l, l ∈ headingLevelsOf (docBlocks c 0 nm "") ↔ 1 ≤ l ∧ l ≤ Cmd.depth c) := by
  refine ⟨renderBlocks_docBlocks c 0 nm "", headingLevels_docBlocks c 0 nm "", fun l => ?_⟩
  rw [headingLevels_docBlocks c 0 nm ""]
  simpa using mem_preLevels c 0 l

/-- The whitespace characters Python `str.strip()` removes, over the ASCII
range (space, tab, newline, carriage return, vertical tab, form feed). -/
def pyWs (c : Char) : Bool :=
  c == ' ' || c == '\t' || c == '\n' || c == '\r' || c == '\x0B' || c == '\x0C'

/-- `str.strip()` on a character list: drop leading whitespace, then drop
trailing whitespace. -/
def stripList (l : List Char) : List Char :=
  ((l.dropWhile pyWs).reverse.dropWhile pyWs).reverse

/-- Python `docs.strip()` (main.py:296). -/
def pyStrip (s : String) : String := String.mk (stripList s.data)

theorem strData_append (a b : String) : (a ++ b).data = a.data ++ b.data := by
  cases a
  cases b
  rfl

theorem strData_mk (l : List Char) : (String.mk l).data = l := rfl

theorem mem_dropWhile_of_not {α : Type} (p : α → Bool) {c : α} {l : List α}
    (hc : c ∈ l) (hw : p c = false) : c ∈ l.dropWhile p := by
  induction l with
  | nil => cases hc
  | cons a t ih =>
    by_cases ha : p a = true
    · rw [List.dropWhile_cons_of_pos ha]
      rcases List.mem_cons.mp hc with rfl | hct
      · rw [hw] at ha; cases ha
      · exact ih hct
    · rw [List.dropWhile_cons_of_neg ha]
      exact hc

theorem head?_dropWhile_not {α : Type} (p : α → Bool) (l : List α) {c : α}
    (h : (l.dropWhile p).head? = some c) : p c = false := by
  induction l with
  | nil => cases h
  | cons a t ih =>
    by_cases ha : p a = true
    · rw [List.dropWhile_cons_of_pos ha] at h
      exact ih h
    · rw [List.dropWhile_cons_of_neg ha] at h
      injection h with h
      rw [← h]
      cases hpa : p a
      · rfl
      · exact absurd hpa ha

theorem stripList_ne_nil {l : List Char} {c : Char} (hc : c ∈ l)
    (hw : pyWs c = false) : stripList l ≠ [] := by
  intro hnil
  unfold stripList at hnil
  rw [List.reverse_eq_nil_iff] at hnil
  have h1 : c ∈ l.dropWhile pyWs := mem_dropWhile_of_not pyWs hc hw
  have h2 : c ∈ (l.dropWhile pyWs).reverse := List.mem_reverse.mpr h1
  have h3 : c ∈ (l.dropWhile pyWs).reverse.dropWhile pyWs :=
    mem_dropWhile_of_not pyWs h2 hw
  exact List.ne_nil_of_mem h3 hnil

theorem stripList_getLast {l : List Char} (h : stripList l ≠ []) :
    ∃ c, (stripList l).getLast? = some c ∧ pyWs c = false := by
  cases hdc : (l.dropWhile pyWs).reverse.dropWhile pyWs with
  | nil =>
    exfalso
    apply h
    unfold stripList
    rw [hdc]
    rfl
  | cons a t =>
    have hhead : ((l.dropWhile pyWs).reverse.dropWhile pyWs).head? = some a := by
      rw [hdc]
      rfl
    refine ⟨a, ?_, head?_dropWhile_not pyWs _ hhead⟩
    unfold stripList
    rw [List.getLast?_reverse, hhead]

/-- Every rendering starts with a heading marker: the first character of
`get_docs_for_click` is `#`. -/
theorem docs_data_head (c : Cmd) (ind : Nat) (nm pre : String) :
    (get_docs_for_click c ind nm pre).data.head? = some '#' := by
  cases c with
  | node info children =>
    rw [get_docs_for_click, ownSections, headingStr]
    simp only [strData_append, strData_mk]
    rw [show 1 + ind = ind + 1 from Nat.add_comm 1 ind, List.replicate_succ]
    simp only [List.cons_append, List.head?_cons]

theorem docs_data_mem (c : Cmd) (ind : Nat) (nm pre : String) :
    '#' ∈ (get_docs_for_click c ind nm pre).data := by
  have h := docs_data_head c ind nm pre
  cases hL : (get_docs_for_click c ind nm pre).data with
  | nil => rw [hL] at h; cases h
  | cons x t =>
    rw [hL] at h
    injection h with h
    subst h
    exact List.mem_cons_self _ _

/-- The observable outcome of one run of the `docs` command: the process exit
status (0 = success, 1 = `typer.Abort` / `sys.exit(1)`), the file written via
`output.write_text` (path and contents) if any, and the bytes sent to stdout
and stderr. -/
structure DocsOutcome where
  exitCode : Nat
  fileWritten : Option (String × String)
  stdoutText : String
  stderrText : String
deriving DecidableEq, Repr

/-- The `docs` command (main.py:276-301).  `toTree` models
`typer.main.get_command` building the click command tree of the discovered
Typer object.  `typer.echo` appends one newline to its message (click's
default `nl=True`); `typer.echo(..., err=True)` writes to stderr.
`typer.Abort` makes the click runtime exit with status 1 (it also prints
"Aborted!", elided here, as is the loader's own error message in the
`error` branch). -/
def docs (st : State) (loader : LoadOutcome) (toTree : Found → Cmd)
    (name : String) (output : Option String) : DocsOutcome :=
  match get_typer_from_state st loader with
  | .error c => ⟨c, none, "", ""⟩
  | .ok none => ⟨1, none, "", "No Typer app found\n"⟩
  | .ok (some f) =>
    let docsStr := get_docs_for_click (toTree f) 0 name ""
    let clean_docs := pyStrip docsStr ++ "\n"
    match output with
    | some path => ⟨0, some (path, clean_docs), "Docs saved to: " ++ path ++ "\n", ""⟩
    | none => ⟨0, none, clean_docs ++ "\n", ""⟩

/-- C10: when App Discovery returns absent, the `docs` command prints
"No Typer app found" to the error stream and terminates non-zero
(`typer.Abort`), writing no file and emitting nothing to stdout. -/
theorem C10_docs_absent_fatal (st : State) (loader : LoadOutcome)
    (toTree : Found → Cmd) (nm : String) (output : Option String)
    (h : get_typer_from_state st loader = .ok none) :
    docs st loader toTree nm output = ⟨1, none, "", "No Typer app found\n"⟩ := by
  unfold docs
  rw [h]

theorem C10_docs_absent_fatal_witness :
    docs { initState with file := some "script.py" } (.success [])
      (fun _ => .node ⟨"", none, [], [], none, "", false⟩ .nil) "" none =
      ⟨1, none, "", "No Typer app found\n"⟩ :=
  C10_docs_absent_fatal { initState with file := some "script.py" } (.success [])
    (fun _ => .node ⟨"", none, [], [], none, "", false⟩ .nil) "" none rfl

/-- C7 as stated is violated on the standard-output branch: the code passes
`clean_docs` (trimmed docs plus one newline) to `typer.echo`, which appends a
second newline, so the bytes emitted to stdout are not equal to the trimmed
docs followed by exactly one trailing newline. -/
theorem C7_counterexample :
    docs { initState with file := some "script.py" } (.success [("app", .typerApp)])
        (fun _ => .node ⟨"x", none, [], [], none, "", false⟩ .nil) "" none =
      ⟨0, none, "# `x`\n\n", ""⟩ ∧
    ("# `x`\n\n" : String) ≠
      pyStrip (get_docs_for_click (.node ⟨"x", none, [], [], none, "", false⟩ .nil) 0 "" "")
        ++ "\n" := by
  exact ⟨rfl, by decide⟩

/-- C7 amended: the file branch writes exactly the generated docs with
surrounding whitespace trimmed plus one trailing newline, whose final two
characters are a non-whitespace character followed by a single newline; the
stdout branch passes that same string to `typer.echo`, which appends one more
newline, so the stream ends with two newlines rather than one. -/
theorem C7_docs_trailing_newline (st : State) (loader : LoadOutcome)
    (toTree : Found → Cmd) (nm : String) (f : Found) (path : String)
    (hs : get_typer_from_state st loader = .ok (some f)) :
    docs st loader toTree nm (some path) =
      ⟨0, some (path, pyStrip (get_docs_for_click (toTree f) 0 nm "") ++ "\n"),
        "Docs saved to: " ++ path ++ "\n", ""⟩ ∧
    docs st loader toTree nm none =
      ⟨0, none, (pyStrip (get_docs_for_click (toTree f) 0 nm "") ++ "\n") ++ "\n", ""⟩ ∧
    (pyStrip (get_docs_for_click (toTree f) 0 nm "") ++ "\n").data.getLast? = some '\n' ∧
    (∃ c, (pyStrip (get_docs_for_click (toTree f) 0 nm "") ++ "\n").data.dropLast.getLast?
        = some c ∧ pyWs c = false) := by
  have hdata : (pyStrip (get_docs_for_click (toTree f) 0 nm "") ++ "\n").data =
      stripList (get_docs_for_click (toTree f) 0 nm "").data ++ ['\n'] := by
    rw [strData_append]
    rfl
  have hne : stripList (get_docs_for_click (toTree f) 0 nm "").data ≠ [] :=
    stripList_ne_nil (docs_data_mem (toTree f) 0 nm "") rfl
  refine ⟨?_, ?_, ?_, ?_⟩
  · unfold docs
    rw [hs]
  · unfold docs
    rw [hs]
  · rw [hdata, List.getLast?_concat]
  · rw [hdata, List.dropLast_concat]
    exact stripList_getLast hne

theorem C7_docs_trailing_newline_witness :
    docs { initState with file := some "script.py" } (.success [("app", .typerApp)])
        (fun _ => .node ⟨"x", none, [], [], none, "", false⟩ .nil) "" (some "README.md") =
      ⟨0, some ("README.md",
          pyStrip (get_docs_for_click
            ((fun _ => Cmd.node ⟨"x", none, [], [], none, "", false⟩ .nil)
              (Found.existing "app")) 0 "" "") ++ "\n"),
        "Docs saved to: " ++ "README.md" ++ "\n", ""⟩ ∧
    docs { initState with file := some "script.py" } (.success [("app", .typerApp)])
        (fun _ => .node ⟨"x", none, [], [], none, "", false⟩ .nil) "" none =
      ⟨0, none, (pyStrip (get_docs_for_click
          ((fun _ => Cmd.node ⟨"x", none, [], [], none, "", false⟩ .nil)
            (Found.existing "app")) 0 "" "") ++ "\n") ++ "\n", ""⟩ ∧
    (pyStrip (get_docs_for_click
        ((fun _ => Cmd.node ⟨"x", none, [], [], none, "", false⟩ .nil)
          (Found.existing "app")) 0 "" "") ++ "\n").data.getLast? = some '\n' ∧
    (∃ c, (pyStrip (get_docs_for_click
        ((fun _ => Cmd.node ⟨"x", none, [], [], none, "", false⟩ .nil)
          (Found.existing "app")) 0 "" "") ++ "\n").data.dropLast.getLast?
        = some c ∧ pyWs c = false) :=
  C7_docs_trailing_newline { initState with file := some "script.py" }
    (.success [("app", .typerApp)])
    (fun _ => .node ⟨"x", none, [], [], none, "", false⟩ .nil) ""
    (.existing "app") "README.md" rfl

end TyperCli
